import Mathlib

/-!
Shallow embedding of the `avast` Go client (package `avast`, file `avast.go`):
a line-oriented protocol client for the Avast antivirus daemon.  Go strings
are modelled as lists of characters (`GoStr`); for ASCII data (all protocol
tokens and the concrete payloads below) the byte view and the character view
coincide, and theorems that depend on Go's byte-based slicing carry an
explicit all-ASCII hypothesis.  Go run-time panics (out-of-range slice or
index) are modelled by `Option`: `none` is a panic.
-/

namespace Avast

/-- Go strings, viewed as character lists. -/
abbrev GoStr := List Char

/-- Character list of a Lean string literal. -/
def gs (s : String) : GoStr := s.data

instance {α β : Type} [DecidableEq α] [DecidableEq β] :
    DecidableEq (Except α β) := fun x y =>
  match x, y with
  | .error a, .error b =>
    if h : a = b then .isTrue (by rw [h]) else .isFalse (by intro hc; cases hc; exact h rfl)
  | .error _, .ok _ => .isFalse (by intro hc; cases hc)
  | .ok _, .error _ => .isFalse (by intro hc; cases hc)
  | .ok a, .ok b =>
    if h : a = b then .isTrue (by rw [h]) else .isFalse (by intro hc; cases hc; exact h rfl)

/-- A character is ASCII (single byte in UTF-8): byte index = char index. -/
def AllAscii (s : GoStr) : Prop := ∀ c ∈ s, c.toNat < 128

instance (s : GoStr) : Decidable (AllAscii s) := by
  unfold AllAscii; infer_instance

/-- `strings.HasPrefix s pre`. -/
def goHasPrefix (s pre : GoStr) : Bool := pre.isPrefixOf s

/-- `strings.HasSuffix s suf`. -/
def goHasSuffix (s suf : GoStr) : Bool := suf.isSuffixOf s

/-- `strings.TrimPrefix s pre`: drop `pre` when it is a prefix, else `s`. -/
def goTrimPrefix (s pre : GoStr) : GoStr :=
  if goHasPrefix s pre then s.drop pre.length else s

/-- Go slice expression `s[i:]`: panics (`none`) when `i > len(s)`. -/
def goSliceFrom (s : GoStr) (i : Nat) : Option GoStr :=
  if i ≤ s.length then some (s.drop i) else none

/-- `strings.SplitN s sep 2` for a single-character separator: one piece when
`sep` does not occur, otherwise the part before the first occurrence and the
whole remainder after it. -/
def goSplitN2 (s : GoStr) (sep : Char) : List GoStr :=
  if sep ∈ s then [s.takeWhile (· ≠ sep), (s.dropWhile (· ≠ sep)).drop 1]
  else [s]

/-- `strconv.Atoi`: optional sign, then one or more ASCII digits, value must
fit in a 64-bit `int`; anything else is an error (`none`). -/
def goAtoi (s : GoStr) : Option Int :=
  let core : GoStr → Option Nat := fun ds =>
    if ds ≠ [] ∧ ds.all Char.isDigit then
      some (ds.foldl (fun a c => a * 10 + (c.toNat - 48)) 0)
    else none
  let signed : Option Int :=
    match s with
    | '+' :: t => (core t).map Int.ofNat
    | '-' :: t => (core t).map (fun n => -(n : Int))
    | t => (core t).map Int.ofNat
  match signed with
  | some v => if -(2 ^ 63) ≤ v ∧ v ≤ 2 ^ 63 - 1 then some v else none
  | none => none

/-! ### Protocol constants (`const` block of avast.go) -/

def excludeOKResp : GoStr := gs "200 EXCLUDE OK"

def scanOkResp : GoStr := gs "200 SCAN OK"

def urlBlockedResp : GoStr := gs "URL blocked"

def avastSock : GoStr := gs "/var/run/avast/scan.sock"

/-- `invalidRespErr = "Invalid server response: %s"` applied to a payload. -/
def invalidRespMsg (s : GoStr) : GoStr := gs "Invalid server response: " ++ s

/-- `unixSockErr = "The unix socket: %s does not exist"` applied to a path. -/
def unixSockMsg (s : GoStr) : GoStr :=
  gs "The unix socket: " ++ s ++ gs " does not exist"

/-! ### Enumerations and their string tables

Go declares `Command`, `PackOption`, `Flag` and `SensiOption` as `int`-based
types; each `String()` method guards the range and indexes a literal table.
We model the underlying values as `Int` and keep the same tables. -/

def sensiNames : List GoStr :=
  [gs "", gs "worm", gs "trojan", gs "adware", gs "spyware", gs "dropper",
   gs "kit", gs "joke", gs "dangerous", gs "dialer", gs "rootkit",
   gs "exploit", gs "pup", gs "suspicious", gs "pube"]

/-- `SensiOption.String()`: out of range `[Worm, Pube] = [1, 14]` gives `""`. -/
def sensiOptionString (so : Int) : GoStr :=
  if so < 1 ∨ so > 14 then [] else sensiNames.getD so.toNat []

/-- `SensiOption.Enable()`: `fmt.Sprintf("+%s", so)`. -/
def sensiOptionEnable (so : Int) : GoStr := '+' :: sensiOptionString so

/-- `SensiOption.Disable()`: `fmt.Sprintf("-%s", so)`. -/
def sensiOptionDisable (so : Int) : GoStr := '-' :: sensiOptionString so

def flagNames : List GoStr :=
  [gs "", gs "fullfiles", gs "allfiles", gs "scandevices"]

/-- `Flag.String()`: out of range `[FullFiles, ScanDevices] = [1, 3]` gives `""`. -/
def flagString (f : Int) : GoStr :=
  if f < 1 ∨ f > 3 then [] else flagNames.getD f.toNat []

/-- `Flag.Enable()`. -/
def flagEnable (f : Int) : GoStr := '+' :: flagString f

/-- `Flag.Disable()`. -/
def flagDisable (f : Int) : GoStr := '-' :: flagString f

def packNames : List GoStr :=
  [gs "", gs "mime", gs "zip", gs "arj", gs "rar", gs "cab", gs "tar",
   gs "gz", gs "bzip2", gs "ace", gs "arc", gs "zoo", gs "lharc", gs "chm",
   gs "cpio", gs "rpm", gs "7zip", gs "iso", gs "tnef", gs "dbx", gs "sys",
   gs "ole", gs "exec", gs "winexec", gs "install", gs "dmg"]

/-- `PackOption.String()`: out of range `[Mime, Dmg] = [1, 25]` gives `""`. -/
def packOptionString (p : Int) : GoStr :=
  if p < 1 ∨ p > 25 then [] else packNames.getD p.toNat []

/-- `PackOption.Enable()`. -/
def packOptionEnable (p : Int) : GoStr := '+' :: packOptionString p

/-- `PackOption.Disable()`. -/
def packOptionDisable (p : Int) : GoStr := '-' :: packOptionString p

def commandNames : List GoStr :=
  [gs "", gs "SCAN", gs "VPS", gs "PACK", gs "FLAGS", gs "SENSITIVITY",
   gs "EXCLUDE", gs "CHECKURL", gs "QUIT"]

/-- `Command.String()`: out of range `[Scan, Quit] = [1, 8]` gives `""`. -/
def commandString (c : Int) : GoStr :=
  if c < 1 ∨ c > 8 then [] else commandNames.getD c.toNat []

/-- `Command.Len()`: length of the wire token (byte length; the tokens are
all ASCII so the character length agrees). -/
def commandLen (c : Int) : Nat := (commandString c).length

/-- The `Exclude` command constant (`iota + 1` order). -/
def excludeCmd : Int := 6

/-! ### Simple-command payload decoding

`basicCmd` reads the three-part envelope and hands each public method one
payload line; the methods below are exactly the payload-decoding steps of
`Vps()`, `GetExclude()` and `CheckURL()`.  `none` is a Go panic. -/

/-- `Vps()` on the payload line `s` delivered by `basicCmd`: prefix check
against `"VPS"`, then `strconv.Atoi(s[4:])`; a failed `Atoi` or a missing
prefix is an invalid-response error quoting `s`, and `s[4:]` panics when
`len(s) < 4`. -/
def vps (s : GoStr) : Option (Except GoStr Int) :=
  if ¬ goHasPrefix s (gs "VPS") then some (.error (invalidRespMsg s))
  else
    match goSliceFrom s 4 with
    | none => none
    | some rest =>
      match goAtoi rest with
      | none => some (.error (invalidRespMsg s))
      | some v => some (.ok v)

/-- The `cmd == Exclude` special case inside `basicCmd` (lines 605-610):
a payload equal to the `200 EXCLUDE OK` sentinel is replaced by `""`. -/
def excludePayload (r : GoStr) : GoStr :=
  if r = excludeOKResp then [] else r

/-- `GetExclude()` on the raw payload line `raw`: after `basicCmd`'s sentinel
replacement, an empty payload yields `""`; a payload without the `EXCLUDE`
prefix is an invalid-response error; otherwise the result is
`s[Exclude.Len()+1:]`, which panics when `len(s) < 8`. -/
def getExclude (raw : GoStr) : Option (Except GoStr GoStr) :=
  let s := excludePayload raw
  if s = [] then some (.ok [])
  else if ¬ goHasPrefix s (commandString excludeCmd) then
    some (.error (invalidRespMsg s))
  else
    match goSliceFrom s (commandLen excludeCmd + 1) with
    | none => none
    | some rest => some (.ok rest)

/-- `CheckURL(u)` once `basicCmd` has read the single response line `s`
(the `cmd == CheckURL` branch reads one line and returns, with no envelope):
the result is `strings.HasSuffix(s, urlBlockedResp)` and no error. -/
def checkURL (s : GoStr) : Bool := goHasSuffix s urlBlockedResp

/-- The `cmd == CheckURL` branch of `basicCmd` run against the daemon's
pending response lines: it reads exactly one line (a failed read is a
transport error, `Except.error`) and leaves the rest of the stream alone --
no opening or closing status line is consumed. -/
def basicCmdCheckURL : List GoStr → Except Unit (GoStr × List GoStr)
  | [] => .error ()
  | l :: rest => .ok (l, rest)

/-- `CheckURL(u)` end to end over the pending response lines: one line read,
its `checkURL` verdict returned with no error, remaining lines untouched. -/
def checkURLCmd (lines : List GoStr) : Except Unit (Bool × List GoStr) :=
  match basicCmdCheckURL lines with
  | .error e => .error e
  | .ok (l, rest) => .ok (checkURL l, rest)

/-! ### The streaming SCAN parser (`fileCmd`)

`responseRe` is the anchored pattern
`^SCAN (?P<filename>[^\t]+)\t(?:\[(?P<status>[+LE])\])(?P<depth>\d\.\d)(?:\t(?P<signature>.+))?$`.
Because the filename class excludes the tab and the pattern is anchored at
both ends, matching is deterministic: the filename is exactly the run up to
the first tab, then come `[` status `]`, digit `.` digit, and optionally a
tab followed by one or more non-newline characters reaching the end. -/

/-- The part of `responseRe` after the literal `SCAN ` prefix, applied to
the rest of the line: filename up to the first tab (nonempty), then
`[` status `]`, digit `.` digit, then either end of line or a tab followed
by a nonempty signature of non-newline characters. -/
def scanLineBody (rest : GoStr) : Option (GoStr × GoStr × GoStr × GoStr) :=
  let fn := rest.takeWhile (· ≠ '\t')
  if fn = [] then none
  else
    match rest.dropWhile (· ≠ '\t') with
    | '\t' :: '[' :: st :: ']' :: d1 :: '.' :: d2 :: tail =>
      if (st = '+' ∨ st = 'L' ∨ st = 'E') ∧ d1.isDigit ∧ d2.isDigit then
        match tail with
        | [] => some (fn, [st], [d1, '.', d2], [])
        | '\t' :: sig =>
          if sig ≠ [] ∧ '\n' ∉ sig then some (fn, [st], [d1, '.', d2], sig)
          else none
        | _ => none
      else none
    | _ => none

/-- `responseRe.FindStringSubmatch l`, returning the four capture groups
`(filename, status, depth, signature)`; a non-participating signature group
is the empty string, exactly as in Go. -/
def scanLineMatch (l : GoStr) : Option (GoStr × GoStr × GoStr × GoStr) :=
  if goHasPrefix l (gs "SCAN ") then scanLineBody (l.drop 5) else none

/-- The `Response` struct filled in for each matched SCAN line. -/
structure Response where
  Filename : GoStr
  ArchiveItem : GoStr
  Signature : GoStr
  Status : GoStr
  Infected : Bool
  Raw : GoStr
  deriving Repr, DecidableEq

/-- The body of the `else` branch at lines 650-668 of `fileCmd`: build a
`Response` from the submatches `mb[1..4]`.  When the depth does not start
with `"0."` the filename is split at the first `|` via `SplitN(..., 2)` and
`pts[1]` is read -- a panic (`none`) when the filename holds no pipe. -/
def decodeScanLine (l fn st depth sig : GoStr) : Option Response :=
  let fa : Option (GoStr × GoStr) :=
    if goHasPrefix depth (gs "0.") then some (fn, [])
    else
      match goSplitN2 fn '|' with
      | [p0, p1] => some (p0, p1)
      | _ => none
  match fa with
  | none => none
  | some (f, a) =>
    some { Filename := f
           ArchiveItem := a
           Status := st
           Infected := st = gs "L"
           Signature := if st = gs "L" then goTrimPrefix sig (gs "0 ") else sig
           Raw := l }

/-- Outcome of the `fileCmd` read loop. -/
inductive ScanOutcome where
  /-- Loop broke at the `200 SCAN OK` sentinel with no pending soft error. -/
  | ok (rs : List Response)
  /-- Loop broke at the sentinel; `gerr` held the invalid-response error for
  payload `l`, promoted to `err` because no transport error occurred. -/
  | invalid (rs : List Response) (l : GoStr)
  /-- `ReadLine` failed: the transport error returns at once and any pending
  `gerr` is dropped. -/
  | transport (rs : List Response)
  deriving Repr, DecidableEq

/-- The read loop of `fileCmd` (lines 641-680).  `rs` is the accumulated
result slice, `g` the pending soft error's payload (`gerr`); running out of
input models a failed `ReadLine`.  `none` is a panic inside the decode
step. -/
def fileCmdLoop : List GoStr → List Response → Option GoStr →
    Option ScanOutcome
  | [], rs, _ => some (.transport rs)
  | l :: tl, rs, g =>
    if goHasPrefix l (gs "SCAN") then
      match scanLineMatch l with
      | none => fileCmdLoop tl rs (some l)
      | some (fn, st, depth, sig) =>
        match decodeScanLine l fn st depth sig with
        | none => none
        | some r => fileCmdLoop tl (rs ++ [r]) g
    else if l = scanOkResp then
      match g with
      | none => some (.ok rs)
      | some e => some (.invalid rs e)
    else fileCmdLoop tl rs (some l)

/-- `fileCmd` after the opening `210` status line: drain the stream. -/
def fileCmd (lines : List GoStr) : Option ScanOutcome :=
  fileCmdLoop lines [] none

/-- A line the loop records as a pending soft error (`gerr`): either it has
the `SCAN` prefix but fails the response pattern, or (on a sentinel-free
stream prefix) it is neither a result line nor the sentinel. -/
def scanMalformed (l : GoStr) : Bool :=
  if goHasPrefix l (gs "SCAN") then (scanLineMatch l).isNone else true

/-- The decode step of line `l` does not hit the `pts[1]` panic. -/
def noPanicLine (l : GoStr) : Bool :=
  match scanLineMatch l with
  | none => true
  | some (fn, st, d, sg) => (decodeScanLine l fn st d sg).isSome

/-- The responses produced by the well-formed lines of a stream prefix. -/
def scanResults (lines : List GoStr) : List Response :=
  lines.filterMap fun l =>
    match scanLineMatch l with
    | none => none
    | some (fn, st, d, sg) => decodeScanLine l fn st d sg

/-- Outcome of breaking at the sentinel with pending soft error `g`. -/
def finishScan (rs : List Response) : Option GoStr → ScanOutcome
  | none => .ok rs
  | some e => .invalid rs e

/-! ### `NewClient` (construction) -/

/-- Result of `os.Stat` on a path, as far as `NewClient` inspects it. -/
inductive StatResult where
  /-- The path exists (`Stat` succeeded). -/
  | found
  /-- `os.IsNotExist` holds for the `Stat` error. -/
  | missing
  deriving Repr, DecidableEq

/-- The pre-dial phase of `NewClient` (lines 684-692): empty addresses fall
back to the default socket path, and a missing path returns the
endpoint-missing error before any dial; `Except.ok a` means construction
proceeds to dial address `a`. -/
def newClientPreDial (stat : GoStr → StatResult) (address : GoStr) :
    Except GoStr GoStr :=
  let address := if address = [] then avastSock else address
  if stat address = .missing then .error (unixSockMsg address)
  else .ok address

/-- Outcome of the greeting phase of `NewClient` (lines 716-726): whether a
construction error is surfaced, and whether `c.tc.Close()` ran (closing the
textproto reader and with it the underlying connection). -/
structure HandshakeResult where
  isErr : Bool
  closed : Bool
  deriving Repr, DecidableEq

/-- The greeting phase: `ReadCodeLine(220)` fails on a read error or on any
code other than 220, and on failure `NewClient` calls `c.tc.Close()` before
returning the error. -/
def newClientGreeting (g : Option Int) : HandshakeResult :=
  match g with
  | none => { isErr := true, closed := true }
  | some code =>
    if code = 220 then { isErr := false, closed := false }
    else { isErr := true, closed := true }

/-! ## Helper lemmas -/

/-- Pushing a cons through `getLast?` under `Option.or`: the head only
matters when the tail contributes no last element. -/
theorem getLast?_or_cons {α : Type} (x : α) (xs : List α) (g : Option α) :
    ((x :: xs).getLast?).or g = (xs.getLast?).or (some x) := by
  induction xs generalizing x g with
  | nil => rfl
  | cons y ys ih => rw [List.getLast?_cons_cons, ih y g, ih y (some x)]

/-- A line the response pattern accepts carries the `SCAN` marker. -/
theorem scanLineMatch_marker {l : GoStr} {mb : GoStr × GoStr × GoStr × GoStr}
    (h : scanLineMatch l = some mb) : goHasPrefix l (gs "SCAN") = true := by
  by_cases hp : goHasPrefix l (gs "SCAN ") = true
  · have h5 := List.isPrefixOf_iff_prefix.mp hp
    have h4 : (gs "SCAN") <+: (gs "SCAN ") := ⟨[' '], by decide⟩
    exact List.isPrefixOf_iff_prefix.mpr (h4.trans h5)
  · unfold scanLineMatch at h
    rw [if_neg hp] at h
    cases h

/-- One step of the read loop over a stream that still ends in the sentinel:
the pending soft error after a prefix is the last malformed line of the
prefix, falling back to the incoming one. -/
theorem fileCmdLoop_sentinel_aux (rest : List GoStr) :
    ∀ (pre : List GoStr) (rs : List Response) (g : Option GoStr),
      scanOkResp ∉ pre → (∀ l ∈ pre, noPanicLine l = true) →
      fileCmdLoop (pre ++ scanOkResp :: rest) rs g =
        some (finishScan (rs ++ scanResults pre)
          (((pre.filter scanMalformed).getLast?).or g)) := by
  intro pre
  induction pre with
  | nil =>
    intro rs g _ _
    have hnp : goHasPrefix scanOkResp (gs "SCAN") = false := by decide
    cases g <;>
      simp [fileCmdLoop, hnp, scanResults, finishScan, Option.none_or]
  | cons l t ih =>
    intro rs g hs hp
    have hne : l ≠ scanOkResp := fun he => hs (he ▸ List.mem_cons_self l t)
    have hst : scanOkResp ∉ t := fun ht => hs (List.mem_cons_of_mem l ht)
    have hpt : ∀ x ∈ t, noPanicLine x = true :=
      fun x hx => hp x (List.mem_cons_of_mem l hx)
    rw [List.cons_append]
    by_cases hm2 : goHasPrefix l (gs "SCAN") = true
    · cases hm : scanLineMatch l with
      | none =>
        rw [show fileCmdLoop (l :: (t ++ scanOkResp :: rest)) rs g =
              fileCmdLoop (t ++ scanOkResp :: rest) rs (some l) from by
            simp [fileCmdLoop, hm2, hm]]
        rw [ih rs (some l) hst hpt]
        have hml : scanMalformed l = true := by simp [scanMalformed, hm2, hm]
        simp [scanResults, List.filterMap_cons, hm, List.filter_cons, hml,
          getLast?_or_cons]
      | some mb =>
        obtain ⟨fn, st, d, sg⟩ := mb
        have hd : (decodeScanLine l fn st d sg).isSome = true := by
          have hl := hp l (List.mem_cons_self l t)
          simpa [noPanicLine, hm] using hl
        obtain ⟨r, hr⟩ := Option.isSome_iff_exists.mp hd
        rw [show fileCmdLoop (l :: (t ++ scanOkResp :: rest)) rs g =
              fileCmdLoop (t ++ scanOkResp :: rest) (rs ++ [r]) g from by
            simp [fileCmdLoop, hm2, hm, hr]]
        rw [ih (rs ++ [r]) g hst hpt]
        have hml : scanMalformed l = false := by simp [scanMalformed, hm2, hm]
        simp [scanResults, List.filterMap_cons, hm, hr, List.filter_cons, hml]
    · rw [Bool.not_eq_true] at hm2
      have hm : scanLineMatch l = none := by
        cases hm3 : scanLineMatch l with
        | none => rfl
        | some mb => rw [scanLineMatch_marker hm3] at hm2; cases hm2
      rw [show fileCmdLoop (l :: (t ++ scanOkResp :: rest)) rs g =
            fileCmdLoop (t ++ scanOkResp :: rest) rs (some l) from by
          simp [fileCmdLoop, hm2, hne]]
      rw [ih rs (some l) hst hpt]
      have hml : scanMalformed l = true := by simp [scanMalformed, hm2]
      simp [scanResults, List.filterMap_cons, hm, List.filter_cons, hml,
        getLast?_or_cons]

/-- The read loop on a sentinel-free stream: the read failure is returned at
once and any pending soft error is dropped. -/
theorem fileCmdLoop_transport_aux :
    ∀ (pre : List GoStr) (rs : List Response) (g : Option GoStr),
      scanOkResp ∉ pre → (∀ l ∈ pre, noPanicLine l = true) →
      fileCmdLoop pre rs g = some (.transport (rs ++ scanResults pre)) := by
  intro pre
  induction pre with
  | nil =>
    intro rs g _ _
    simp [fileCmdLoop, scanResults]
  | cons l t ih =>
    intro rs g hs hp
    have hne : l ≠ scanOkResp := fun he => hs (he ▸ List.mem_cons_self l t)
    have hst : scanOkResp ∉ t := fun ht => hs (List.mem_cons_of_mem l ht)
    have hpt : ∀ x ∈ t, noPanicLine x = true :=
      fun x hx => hp x (List.mem_cons_of_mem l hx)
    by_cases hm2 : goHasPrefix l (gs "SCAN") = true
    · cases hm : scanLineMatch l with
      | none =>
        rw [show fileCmdLoop (l :: t) rs g = fileCmdLoop t rs (some l) from by
            simp [fileCmdLoop, hm2, hm]]
        rw [ih rs (some l) hst hpt]
        simp [scanResults, List.filterMap_cons, hm]
      | some mb =>
        obtain ⟨fn, st, d, sg⟩ := mb
        have hd : (decodeScanLine l fn st d sg).isSome = true := by
          have hl := hp l (List.mem_cons_self l t)
          simpa [noPanicLine, hm] using hl
        obtain ⟨r, hr⟩ := Option.isSome_iff_exists.mp hd
        rw [show fileCmdLoop (l :: t) rs g =
              fileCmdLoop t (rs ++ [r]) g from by
            simp [fileCmdLoop, hm2, hm, hr]]
        rw [ih (rs ++ [r]) g hst hpt]
        simp [scanResults, List.filterMap_cons, hm, hr]
    · rw [Bool.not_eq_true] at hm2
      have hm : scanLineMatch l = none := by
        cases hm3 : scanLineMatch l with
        | none => rfl
        | some mb => rw [scanLineMatch_marker hm3] at hm2; cases hm2
      rw [show fileCmdLoop (l :: t) rs g = fileCmdLoop t rs (some l) from by
          simp [fileCmdLoop, hm2, hne]]
      rw [ih rs (some l) hst hpt]
      simp [scanResults, List.filterMap_cons, hm]

/-! ## Claims -/

/-- Claim C1: the SCAN result line `SCAN archive.zip|inner.exe\t[L]1.0\tEICAR`
produces exactly one result with `Filename = "archive.zip"`,
`ArchiveItem = "inner.exe"`, `Status = "L"`, `Infected = true` and
`Signature = "EICAR"`; the daemon-internal prefix `0 ` is stripped from the
signature of an infected result (third conjunct), and the filename is split
at the pipe exactly because the depth token `1.0` is non-zero: with depth
`0.0` the same filename stays whole (second conjunct). -/
theorem fileCmd_archive_line :
    fileCmd [gs "SCAN archive.zip|inner.exe\t[L]1.0\tEICAR", scanOkResp] =
      some (.ok [{ Filename := gs "archive.zip", ArchiveItem := gs "inner.exe",
                   Signature := gs "EICAR", Status := gs "L", Infected := true,
                   Raw := gs "SCAN archive.zip|inner.exe\t[L]1.0\tEICAR" }]) ∧
    fileCmd [gs "SCAN archive.zip|inner.exe\t[+]0.0", scanOkResp] =
      some (.ok [{ Filename := gs "archive.zip|inner.exe", ArchiveItem := [],
                   Signature := [], Status := gs "+", Infected := false,
                   Raw := gs "SCAN archive.zip|inner.exe\t[+]0.0" }]) ∧
    fileCmd [gs "SCAN archive.zip|inner.exe\t[L]1.0\t0 EICAR", scanOkResp] =
      some (.ok [{ Filename := gs "archive.zip", ArchiveItem := gs "inner.exe",
                   Signature := gs "EICAR", Status := gs "L", Infected := true,
                   Raw := gs "SCAN archive.zip|inner.exe\t[L]1.0\t0 EICAR" }]) := by
  decide

/-- Claim C2 counterexample: two malformed lines `AAA` then `BBB` before the
sentinel.  `gerr` is overwritten on every malformed line, so `fileCmd`
surfaces the invalid-response error for `BBB` — the last non-fatal parse
error — and not the one for `AAA`, the first, refuting the claim as
stated. -/
theorem fileCmd_first_error_refuted :
    fileCmd [gs "AAA", gs "BBB", scanOkResp] =
      some (.invalid [] (gs "BBB")) ∧
    fileCmd [gs "AAA", gs "BBB", scanOkResp] ≠
      some (.invalid [] (gs "AAA")) := by
  decide

/-- Claim C2 (amended): on a stream whose sentinel-free prefix `pre` never
hits the decode panic, (1) reaching the sentinel yields the accumulated
results, together with the invalid-response error for the LAST malformed
line of `pre` when there is one — a soft error is surfaced exactly when no
transport error occurred, never silently swallowed — and (2) a read failure
before the sentinel (the stream is exhausted) returns the transport error
alone, dropping any pending soft error. -/
theorem fileCmd_soft_error_policy (pre rest : List GoStr)
    (hs : scanOkResp ∉ pre) (hp : ∀ l ∈ pre, noPanicLine l = true) :
    fileCmd (pre ++ scanOkResp :: rest) =
      some (finishScan (scanResults pre)
        ((pre.filter scanMalformed).getLast?)) ∧
    fileCmd pre = some (.transport (scanResults pre)) := by
  constructor
  · rw [fileCmd, fileCmdLoop_sentinel_aux rest pre [] none hs hp]
    simp [Option.or_none]
  · rw [fileCmd, fileCmdLoop_transport_aux pre [] none hs hp]
    simp

/-- Claim C2 witness: instantiating the policy on the malformed line `AAA`
followed by the sentinel, and on the exhausted stream `[AAA]`. -/
theorem fileCmd_soft_error_policy_witness :
    fileCmd [gs "AAA", scanOkResp] = some (.invalid [] (gs "AAA")) ∧
    fileCmd [gs "AAA"] = some (.transport []) := by
  have h := fileCmd_soft_error_policy [gs "AAA"] [] (by decide) (by decide)
  constructor
  · rw [show ([gs "AAA"] ++ scanOkResp :: []) = [gs "AAA", scanOkResp] from rfl] at h
    rw [h.1]; decide
  · rw [h.2]; decide

/-- Claim C9: every line accepted by the response pattern whose depth token
does not start with `0.` and whose filename holds no pipe drives the decode
step into `pts[1]` on the one-element split — a panic (`none`), not a result
or an error. -/
theorem decodeScanLine_no_pipe_panics (l fn st d sg : GoStr)
    (hm : scanLineMatch l = some (fn, st, d, sg))
    (hd : goHasPrefix d (gs "0.") = false)
    (hp : '|' ∉ fn) :
    decodeScanLine l fn st d sg = none := by
  simp [decodeScanLine, hd, goSplitN2, hp]

/-- Claim C9 witness: the well-formed line `SCAN foo\t[L]1.0\tEICAR` matches
the pattern with depth `1.0` and pipe-free filename `foo`, and its decode
step panics. -/
theorem decodeScanLine_no_pipe_panics_witness :
    scanLineMatch (gs "SCAN foo\t[L]1.0\tEICAR") =
      some (gs "foo", gs "L", gs "1.0", gs "EICAR") ∧
    decodeScanLine (gs "SCAN foo\t[L]1.0\tEICAR")
      (gs "foo") (gs "L") (gs "1.0") (gs "EICAR") = none :=
  ⟨by decide,
   decodeScanLine_no_pipe_panics _ _ _ _ _ (by decide) (by decide) (by decide)⟩

/-- Claim C10: a payload equal to the bare command token panics in the
prefix-check-then-slice decoding: `Vps()` on payload `VPS` slices `s[4:]`
out of range and `GetExclude()` on payload `EXCLUDE` slices `s[8:]` out of
range (`none`), rather than returning an invalid-response error. -/
theorem bare_token_payload_panics :
    vps (gs "VPS") = none ∧
    getExclude (gs "EXCLUDE") = none ∧
    vps (gs "VPS") ≠ some (.error (invalidRespMsg (gs "VPS"))) ∧
    getExclude (gs "EXCLUDE") ≠
      some (.error (invalidRespMsg (gs "EXCLUDE"))) := by
  decide

/-- `Vps()` on a payload without the `VPS` marker: invalid-response error. -/
theorem vps_no_marker {s : GoStr} (h : goHasPrefix s (gs "VPS") = false) :
    vps s = some (.error (invalidRespMsg s)) := by
  simp [vps, h]

/-- `Vps()` on a payload with the `VPS` marker other than the bare token:
the slice `s[4:]` is in range and the result follows `strconv.Atoi`. -/
theorem vps_with_marker {s : GoStr} (h1 : goHasPrefix s (gs "VPS") = true)
    (h2 : s ≠ gs "VPS") :
    vps s = some (match goAtoi (s.drop 4) with
                  | none => .error (invalidRespMsg s)
                  | some v => .ok v) := by
  have hp3 := List.isPrefixOf_iff_prefix.mp h1
  have hlen3 : 3 ≤ s.length := by
    have hl := hp3.length_le
    rw [show (gs "VPS").length = 3 from by decide] at hl
    exact hl
  have hlen4 : 4 ≤ s.length := by
    rcases Nat.lt_or_ge s.length 4 with hlt | hge
    · exfalso
      have hl3 : s.length = 3 := le_antisymm (Nat.lt_succ_iff.mp hlt) hlen3
      have heq : gs "VPS" = s := hp3.eq_of_length (by rw [hl3]; decide)
      exact h2 heq.symm
    · exact hge
  cases hA : goAtoi (s.drop 4) with
  | none => simp [vps, h1, goSliceFrom, hlen4, hA]
  | some v => simp [vps, h1, goSliceFrom, hlen4, hA]

/-- Claim C3 counterexample: the payload `VPS` carries the `VPS` marker and
its remainder is non-numeric (there is none), yet `Vps()` panics on the
out-of-range slice `s[4:]` instead of returning the invalid-response error
the claim requires for every non-numeric remainder. -/
theorem vps_bare_payload_refutes :
    vps (gs "VPS") = none ∧
    vps (gs "VPS") ≠ some (.error (invalidRespMsg (gs "VPS"))) := by
  decide

/-- Claim C3 (amended): over ASCII payloads, `Vps()` yields an
invalid-response error quoting the payload when the `VPS` marker is absent;
on any payload with the marker other than the bare token `VPS` (which
panics), it returns the `strconv.Atoi` value of `s[4:]` when numeric and
the invalid-response error otherwise; and it succeeds with an integer iff
the marker is present, the payload is not the bare token, and the remainder
is numeric. -/
theorem vps_characterization (s : GoStr) (ha : AllAscii s) :
    (goHasPrefix s (gs "VPS") = false →
      vps s = some (.error (invalidRespMsg s))) ∧
    (goHasPrefix s (gs "VPS") = true → s ≠ gs "VPS" →
      vps s = some (match goAtoi (s.drop 4) with
                    | none => .error (invalidRespMsg s)
                    | some v => .ok v)) ∧
    ((∃ v, vps s = some (.ok v)) ↔
      goHasPrefix s (gs "VPS") = true ∧ s ≠ gs "VPS" ∧
        (goAtoi (s.drop 4)).isSome = true) := by
  refine ⟨fun h => vps_no_marker h, fun h1 h2 => vps_with_marker h1 h2, ?_⟩
  constructor
  · rintro ⟨v, hv⟩
    by_cases h1 : goHasPrefix s (gs "VPS") = true
    · by_cases h2 : s = gs "VPS"
      · subst h2
        rw [show vps (gs "VPS") = none from by decide] at hv
        simp at hv
      · refine ⟨h1, h2, ?_⟩
        rw [vps_with_marker h1 h2] at hv
        cases hA : goAtoi (s.drop 4) with
        | none => rw [hA] at hv; simp at hv
        | some w => simp [hA]
    · rw [Bool.not_eq_true] at h1
      rw [vps_no_marker h1] at hv
      simp at hv
  · rintro ⟨h1, h2, h3⟩
    obtain ⟨v, hA⟩ := Option.isSome_iff_exists.mp h3
    exact ⟨v, by rw [vps_with_marker h1 h2, hA]⟩

/-- Claim C3 witness: the spec's own example `VPS 190918-0` errors on its
non-numeric remainder, while `VPS 190918` parses to 190918. -/
theorem vps_characterization_witness :
    vps (gs "VPS 190918-0") =
      some (.error (invalidRespMsg (gs "VPS 190918-0"))) ∧
    vps (gs "VPS 190918") = some (.ok 190918) := by
  have h1 := (vps_characterization (gs "VPS 190918-0") (by decide)).2.1
    (by decide) (by decide)
  have h2 := (vps_characterization (gs "VPS 190918") (by decide)).2.1
    (by decide) (by decide)
  constructor
  · rw [h1]; decide
  · rw [h2]; decide

/-- Claim C4: `GetExclude()` returns the empty string without error on the
`200 EXCLUDE OK` sentinel and on the empty payload; on `EXCLUDE ` followed
by a path it returns exactly that path; and a non-empty payload other than
the sentinel that lacks the `EXCLUDE` prefix is an invalid-response
error. -/
theorem getExclude_characterization (p s : GoStr) (hs : s ≠ [])
    (hnp : goHasPrefix s (gs "EXCLUDE") = false)
    (hsent : s ≠ excludeOKResp) :
    getExclude excludeOKResp = some (.ok []) ∧
    getExclude [] = some (.ok []) ∧
    getExclude (gs "EXCLUDE " ++ p) = some (.ok p) ∧
    getExclude s = some (.error (invalidRespMsg s)) := by
  have hcs : commandString excludeCmd = gs "EXCLUDE" := by decide
  have hcl : commandLen excludeCmd + 1 = 8 := by decide
  refine ⟨by decide, by decide, ?_, ?_⟩
  · have hsplit : gs "EXCLUDE " ++ p = gs "EXCLUDE" ++ (' ' :: p) := by
      rw [show gs "EXCLUDE " = gs "EXCLUDE" ++ [' '] from by decide,
        List.append_assoc]
      rfl
    have hcons : gs "EXCLUDE " ++ p = 'E' :: (gs "XCLUDE " ++ p) := by
      rw [show gs "EXCLUDE " = 'E' :: gs "XCLUDE " from by decide,
        List.cons_append]
    have hnsent : gs "EXCLUDE " ++ p ≠ excludeOKResp := by
      rw [hcons, show excludeOKResp = '2' :: gs "00 EXCLUDE OK" from by decide]
      intro h
      injection h with h1 _
      exact absurd h1 (by decide)
    have hnnil : gs "EXCLUDE " ++ p ≠ [] := by rw [hcons]; simp
    have hmark : goHasPrefix (gs "EXCLUDE " ++ p) (gs "EXCLUDE") = true := by
      rw [hsplit]
      exact List.isPrefixOf_iff_prefix.mpr (List.prefix_append _ _)
    have hdrop : (gs "EXCLUDE " ++ p).drop 8 = p := by
      rw [show (8 : Nat) = (gs "EXCLUDE ").length from by decide]
      exact List.drop_left _ _
    have hlen : 8 ≤ (gs "EXCLUDE ").length + p.length := by
      rw [show (gs "EXCLUDE ").length = 8 from by decide]
      omega
    simp [getExclude, excludePayload, hnsent, hnnil, hcs, hmark, hcl,
      goSliceFrom, hlen, hdrop]
  · simp [getExclude, excludePayload, hsent, hs, hcs, hnp]

/-- Claim C4 witness: `SetExclude("/root")`'s echoed payload
`EXCLUDE /root` reads back as `/root`; a junk payload `FOO` errors; the
sentinel and the empty payload read back as the empty string. -/
theorem getExclude_characterization_witness :
    getExclude (gs "EXCLUDE /root") = some (.ok (gs "/root")) ∧
    getExclude (gs "FOO") = some (.error (invalidRespMsg (gs "FOO"))) ∧
    getExclude excludeOKResp = some (.ok []) ∧
    getExclude [] = some (.ok []) := by
  have h := getExclude_characterization (gs "/root") (gs "FOO")
    (by decide) (by decide) (by decide)
  refine ⟨?_, h.2.2.2, h.1, h.2.1⟩
  have h3 := h.2.2.1
  rw [show gs "EXCLUDE " ++ gs "/root" = gs "EXCLUDE /root" from by decide]
    at h3
  exact h3

/-- Claim C5: for every response line the daemon sends to a CHECKURL
request, the command reads exactly that single line — the rest of the
stream is left untouched, so no three-part envelope is consumed — returns
no error on either branch, and the boolean is true iff the line ends with
the `URL blocked` marker. -/
theorem checkURL_single_line (l : GoStr) (rest : List GoStr) :
    checkURLCmd (l :: rest) = .ok (checkURL l, rest) ∧
    (checkURL l = true ↔ urlBlockedResp <:+ l) :=
  ⟨rfl, List.isSuffixOf_iff_suffix⟩

/-- Claim C6: for every option family, `Enable()`/`Disable()` are exactly
`+`/`-` followed by the canonical lowercase name; any out-of-range value of
`SensiOption`, `Flag`, `PackOption` or `Command` has the empty canonical
name, so the toggles on out-of-range values degrade to the bare `+`/`-`
fragment, never an error. -/
theorem optionEncoders_characterization :
    (∀ i : Int, sensiOptionEnable i = '+' :: sensiOptionString i ∧
      sensiOptionDisable i = '-' :: sensiOptionString i) ∧
    (∀ i : Int, flagEnable i = '+' :: flagString i ∧
      flagDisable i = '-' :: flagString i) ∧
    (∀ i : Int, packOptionEnable i = '+' :: packOptionString i ∧
      packOptionDisable i = '-' :: packOptionString i) ∧
    (∀ i : Int, i < 1 ∨ 14 < i → sensiOptionString i = []) ∧
    (∀ i : Int, i < 1 ∨ 3 < i → flagString i = []) ∧
    (∀ i : Int, i < 1 ∨ 25 < i → packOptionString i = []) ∧
    (∀ i : Int, i < 1 ∨ 8 < i → commandString i = []) ∧
    sensiOptionEnable 1 = gs "+worm" ∧ sensiOptionDisable 14 = gs "-pube" ∧
    flagEnable 3 = gs "+scandevices" ∧ packOptionEnable 16 = gs "+7zip" ∧
    sensiOptionEnable 15 = gs "+" ∧ flagDisable 0 = gs "-" := by
  refine ⟨fun i => ⟨rfl, rfl⟩, fun i => ⟨rfl, rfl⟩, fun i => ⟨rfl, rfl⟩,
    fun i hi => by simp only [sensiOptionString]; rw [if_pos hi],
    fun i hi => by simp only [flagString]; rw [if_pos hi],
    fun i hi => by simp only [packOptionString]; rw [if_pos hi],
    fun i hi => by simp only [commandString]; rw [if_pos hi],
    by decide, by decide, by decide, by decide, by decide, by decide⟩

/-- Claim C6 witness: out-of-range values of each family (including the
repository test's own `Command(100)`) have the empty canonical name. -/
theorem optionEncoders_witness :
    sensiOptionString 15 = [] ∧ flagString 4 = [] ∧
    packOptionString 26 = [] ∧ commandString 100 = [] :=
  ⟨optionEncoders_characterization.2.2.2.1 15 (by decide),
   optionEncoders_characterization.2.2.2.2.1 4 (by decide),
   optionEncoders_characterization.2.2.2.2.2.1 26 (by decide),
   optionEncoders_characterization.2.2.2.2.2.2.1 100 (by decide)⟩

/-- Claim C7: when the filesystem reports the (possibly defaulted) socket
path missing, `NewClient` returns the endpoint-missing error
`The unix socket: <address> does not exist` from the pre-dial phase:
`Except.error` short-circuits construction before the dial state is ever
reached, so no network connection is made. -/
theorem newClient_missing_socket (stat : GoStr → StatResult) (address : GoStr)
    (h : stat (if address = [] then avastSock else address) = .missing) :
    newClientPreDial stat address =
      .error (unixSockMsg (if address = [] then avastSock else address)) := by
  simp [newClientPreDial, h]

/-- Claim C7 witness: the empty address defaults to the well-known socket
path and a concrete missing path is named in the error. -/
theorem newClient_missing_socket_witness :
    newClientPreDial (fun _ => .missing) [] =
      .error (unixSockMsg avastSock) ∧
    newClientPreDial (fun _ => .missing) (gs "/tmp/nosock") =
      .error (unixSockMsg (gs "/tmp/nosock")) := by
  have h1 := newClient_missing_socket (fun _ => .missing) [] rfl
  have h2 := newClient_missing_socket (fun _ => .missing) (gs "/tmp/nosock")
    rfl
  constructor
  · rw [h1]; decide
  · rw [h2]; decide

/-- Claim C8 counterexample: a greeting line carrying status 500 surfaces a
construction error, but on that path the code runs `c.tc.Close()` — the
connection is closed, not left unclosed as the claim states. -/
theorem newClientGreeting_refuted :
    newClientGreeting (some 500) = { isErr := true, closed := true } ∧
    ¬ (newClientGreeting (some 500)).closed = false := by
  decide

/-- Claim C8 (amended): when the greeting read fails or the line carries a
status code other than 220, `NewClient` surfaces a construction error and
has already called `c.tc.Close()` — closing the textproto connection and
with it the socket — before returning. -/
theorem newClientGreeting_failure (g : Option Int)
    (h : ∀ c : Int, g = some c → c ≠ 220) :
    newClientGreeting g = { isErr := true, closed := true } := by
  cases g with
  | none => rfl
  | some c =>
    have hc := h c rfl
    simp [newClientGreeting, hc]

/-- Claim C8 witness: a failed greeting read errors with the connection
closed. -/
theorem newClientGreeting_failure_witness :
    newClientGreeting none = { isErr := true, closed := true } :=
  newClientGreeting_failure none (by simp)

end Avast
